import Mathlib

/-!
Verification development for the tiled recursive-filter decomposition
(coefficient-matrix algebra, scan/tile decomposition, scheduling tags,
filter-graph lifecycle).  The repository ships the two headers
`coefficients.h` and `recfilter_internals.h`; enum values, struct fields
and inline class bodies are embedded from those headers directly, while
the behaviour of functions whose translation units are absent
(`matrix_B`, `matrix_R`, `matrix_mult`, `matrix_antidiagonal`, the scan
decomposer and the graph mutators) is modelled from the specification.
Matrices use exact rationals in place of fixed-precision floats, so
floating-point tolerance statements become exact equalities.
-/

/-- Error kinds of the metadata builder (spec section 7). -/
inductive RecErr where
  | InvalidOrder
  | InvalidTileWidth
  | DimensionMismatch
  | UnknownStage
  | AlreadyCompiled
  | AlreadyFinalized
  | InconsistentTag
deriving DecidableEq, Repr

/-- Dense matrix with dynamic shape, entries addressed as functions;
entries outside the `rows × cols` range are irrelevant. -/
structure FMatrix where
  rows : Nat
  cols : Nat
  entry : Nat → Nat → ℚ

/-- Entrywise equality on the declared shape (shape must also agree). -/
def matEq (A B : FMatrix) : Prop :=
  A.rows = B.rows ∧ A.cols = B.cols ∧
  ∀ i < A.rows, ∀ j < A.cols, A.entry i j = B.entry i j

instance (A B : FMatrix) : Decidable (matEq A B) := by
  unfold matEq; infer_instance

/-- Modelled from the spec: `multiply(A,B)` is the standard dense product
and fails with DimensionMismatch when the inner dimensions disagree
(the translation unit defining `matrix_mult` is absent from the headers). -/
def matrix_mult (A B : FMatrix) : Except RecErr FMatrix :=
  if A.cols ≠ B.rows then .error .DimensionMismatch
  else .ok ⟨A.rows, B.cols, fun i j => ∑ k ∈ Finset.range A.cols, A.entry i k * B.entry k j⟩

/-- Modelled from the spec: `antidiagonal(n)` is the n×n permutation
matrix with ones on the anti-diagonal (the defining translation unit is
absent from the headers). -/
def matrix_antidiagonal (n : Nat) : FMatrix :=
  ⟨n, n, fun i j => if i + j + 1 = n then 1 else 0⟩

/-- The n×n identity matrix. -/
def identityMat (n : Nat) : FMatrix :=
  ⟨n, n, fun i j => if i = j then 1 else 0⟩

/-- Modelled from the spec: `transpose(A)` is the standard dense
transpose (the defining translation unit is absent from the headers). -/
def matrix_transpose (A : FMatrix) : FMatrix :=
  ⟨A.cols, A.rows, fun i j => A.entry j i⟩

theorem antidiag_prod_entry (n i j : Nat) (hi : i < n) (hj : j < n) :
    (∑ k ∈ Finset.range n,
      (matrix_antidiagonal n).entry i k * (matrix_antidiagonal n).entry k j) =
    if i = j then 1 else 0 := by
  by_cases hij : i = j
  · subst hij
    rw [Finset.sum_eq_single (n - 1 - i)]
    · simp only [matrix_antidiagonal]
      have h1 : i + (n - 1 - i) + 1 = n := by omega
      have h2 : n - 1 - i + i + 1 = n := by omega
      simp [h1, h2]
    · intro b _ hb
      simp only [matrix_antidiagonal]
      have : ¬ (i + b + 1 = n) := by omega
      simp [this]
    · intro hmem
      exact absurd (Finset.mem_range.mpr (by omega)) hmem
  · rw [Finset.sum_eq_zero]
    · simp [hij]
    · intro k _
      simp only [matrix_antidiagonal]
      by_cases h1 : i + k + 1 = n
      · have : ¬ (k + j + 1 = n) := by omega
        simp [this]
      · simp [h1]

/-! ## Causal recurrence scans -/

/-- Dot product of two coefficient/state vectors (shorter one wins). -/
def dotQ (a b : List ℚ) : ℚ := (List.zipWith (fun x y => x * y) a b).sum

/-- One step of the order-r causal recurrence
`y_i = ff * x_i + sum_j fb_j * y_(i-1-j)`; the state is the list of the
most recent outputs, newest first. -/
def scanStep (ff : ℚ) (fb : List ℚ) (st : List ℚ) (xi : ℚ) : ℚ × List ℚ :=
  let yi := ff * xi + dotQ fb st
  (yi, (yi :: st).take fb.length)

/-- Run the recurrence over the inputs from an initial boundary state,
returning the outputs and the final state (the outgoing tail). -/
def runScanAux (ff : ℚ) (fb : List ℚ) (bIn : List ℚ) (xs : List ℚ) :
    List ℚ × List ℚ :=
  xs.foldl (fun acc xi =>
    let s := scanStep ff fb acc.2 xi
    (acc.1 ++ [s.1], s.2)) (([] : List ℚ), bIn)

/-- Outputs of a scan seeded with boundary `bIn`. -/
def runScan (ff : ℚ) (fb : List ℚ) (bIn : List ℚ) (xs : List ℚ) : List ℚ :=
  (runScanAux ff fb bIn xs).1

/-- Outgoing tail (last `r` outputs, newest first) of a scan. -/
def tailState (ff : ℚ) (fb : List ℚ) (bIn : List ℚ) (xs : List ℚ) : List ℚ :=
  (runScanAux ff fb bIn xs).2

/-- Modelled from the spec: the direct untiled recurrence evaluation —
the whole image processed as one causal scan with zero initial state. -/
def directScan (ff : ℚ) (fb : List ℚ) (xs : List ℚ) : List ℚ :=
  runScan ff fb (List.replicate fb.length 0) xs

/-- The `j`-th standard basis vector of length `n`. -/
def basisVec (n j : Nat) : List ℚ :=
  (List.range n).map (fun k => if k = j then 1 else 0)

/-- Entry function of the R ("tailCorrection") matrix: column `j` is the
outgoing tail produced by feeding boundary basis vector `e_j` and a
zero tile of width `t` through the scan's own recurrence. -/
def matRfun (fb : List ℚ) (t : Nat) : Nat → Nat → ℚ := fun i j =>
  (tailState 0 fb (basisVec fb.length j) (List.replicate t 0)).getD i 0

/-- Entry function of the B ("boundaryContribution") matrix: column `j`
is the outgoing tail produced by input basis vector `e_j` with zero
incoming boundary; with `clamp` the out-of-range taps replicate the
edge sample, affecting only the edge columns. -/
def matBfun (ff : ℚ) (fb : List ℚ) (t : Nat) (clamp : Bool) : Nat → Nat → ℚ :=
  fun i j =>
    let x := basisVec t j
    let b := if clamp then List.replicate fb.length (x.getD 0 0)
             else List.replicate fb.length 0
    (tailState ff fb b x).getD i 0

/-- Modelled from the spec: `tailCorrection(feedback, tileWidth)`
("R matrix") builds the r×r matrix mapping a tile's incoming boundary
values to the boundary values after one application of the scan's own
recurrence over the tile; the feedback row holds exactly the scan's `r`
order taps.  Fails with InvalidOrder if the order is 0 or
`tileWidth < order`.  The defining translation unit of `matrix_R` is
absent from the headers. -/
def matrix_R (fb : List ℚ) (t : Nat) : Except RecErr FMatrix :=
  if fb.length = 0 ∨ t < fb.length then .error .InvalidOrder
  else .ok ⟨fb.length, fb.length, matRfun fb t⟩

/-- Modelled from the spec: `boundaryContribution(feedforward, feedback,
tileWidth, clampBorder)` ("B matrix") builds the r×tileWidth matrix
mapping a tile's raw input samples to the r boundary values handed to
the neighbouring tile (the last r causal outputs).  Fails with
InvalidOrder if the order is 0 or `tileWidth < order`.  The defining
translation unit of `matrix_B` is absent from the headers. -/
def matrix_B (ff : ℚ) (fb : List ℚ) (t : Nat) (clamp : Bool) :
    Except RecErr FMatrix :=
  if fb.length = 0 ∨ t < fb.length then .error .InvalidOrder
  else .ok ⟨fb.length, t, matBfun ff fb t clamp⟩

/-! ## Scan decomposition: tiles -/

/-- Modelled from the spec: widths of the tiles the decomposer's
update-iteration domain covers — `ceil(w / t)` tiles of width `t`, the
final one narrower when `t` does not divide `w`.  Empty for the invalid
tile width 0. -/
def tileWidths : Nat → Nat → List Nat
  | w, t =>
    if _ht : t = 0 then []
    else if _hw : w = 0 then []
    else if w ≤ t then [w]
    else t :: tileWidths (w - t) t
termination_by w _ => w
decreasing_by omega

/-- Modelled from the spec: split the input image into tiles of width
`t` (the final tile may be narrower). -/
def chunkTiles (t : Nat) : List ℚ → List (List ℚ)
  | [] => []
  | x :: xs =>
    if _ht : t = 0 then []
    else (x :: xs).take t :: chunkTiles t ((x :: xs).drop t)
termination_by xs => xs.length
decreasing_by simp [List.length_drop]; omega

/-- Matrix–vector product over the declared shape. -/
def matVecMul (M : FMatrix) (v : List ℚ) : List ℚ :=
  (List.range M.rows).map (fun i =>
    ∑ k ∈ Finset.range M.cols, M.entry i k * v.getD k 0)

/-- Pointwise sum of two vectors. -/
def vecAdd (a b : List ℚ) : List ℚ := List.zipWith (fun x y => x + y) a b

/-- R matrix as a bare matrix (validation stripped), used by the
inter-tile stage. -/
def matRmat (fb : List ℚ) (t : Nat) : FMatrix :=
  ⟨fb.length, fb.length, matRfun fb t⟩

/-- B matrix as a bare matrix (validation stripped), used by the
intra-tile stage. -/
def matBmat (ff : ℚ) (fb : List ℚ) (t : Nat) (clamp : Bool) : FMatrix :=
  ⟨fb.length, t, matBfun ff fb t clamp⟩

/-- Modelled from the spec: intra-tile stage — each tile's outgoing
tail as the B matrix applied to the tile's raw samples. -/
def intraTileTails (ff : ℚ) (fb : List ℚ) (tiles : List (List ℚ)) :
    List (List ℚ) :=
  tiles.map (fun x => matVecMul (matBmat ff fb x.length false) x)

/-- Modelled from the spec: inter-tile stage — a sequential scan across
tiles carrying `r` boundary values, correcting each tile's tail by the
R matrix applied to its predecessor's corrected tail; returns the
corrected incoming boundary of every tile (zero for the first). -/
def interTileBoundaries (fb : List ℚ) (tiles tails : List (List ℚ)) :
    List (List ℚ) :=
  ((tiles.zip tails).foldl (fun acc p =>
    let b := acc.2
    let ct := vecAdd p.2 (matVecMul (matRmat fb p.1.length) b)
    (acc.1 ++ [b], ct)) (([] : List (List ℚ)), List.replicate fb.length 0)).1

/-- Modelled from the spec: the composed tiled evaluation — chunk the
input into tiles, compute per-tile tails (intra-tile stage), resolve
corrected boundaries across tiles (inter-tile stage), re-run each tile
from its corrected boundary and reassemble the global output in index
order (reindex stage). -/
def tiledPipeline (ff : ℚ) (fb : List ℚ) (t : Nat) (xs : List ℚ) : List ℚ :=
  let tiles := chunkTiles t xs
  let tails := intraTileTails ff fb tiles
  let bs := interTileBoundaries fb tiles tails
  ((tiles.zip bs).map (fun p => runScan ff fb p.2 p.1)).flatten

theorem chunkTiles_all (t : Nat) (xs : List ℚ) (hne : xs ≠ [])
    (hlen : xs.length ≤ t) : chunkTiles t xs = [xs] := by
  match xs with
  | [] => exact absurd rfl hne
  | x :: l =>
    have ht : t ≠ 0 := by
      intro h; rw [h] at hlen; simp at hlen
    rw [chunkTiles]
    simp only [ht, dite_false, reduceDIte]
    rw [List.take_of_length_le hlen, List.drop_eq_nil_of_le hlen]
    rw [chunkTiles]

theorem tiledPipeline_single_tile (ff : ℚ) (fb : List ℚ) (t : Nat)
    (xs : List ℚ) (hne : xs ≠ []) (hlen : xs.length ≤ t) :
    tiledPipeline ff fb t xs = directScan ff fb xs := by
  unfold tiledPipeline
  rw [chunkTiles_all t xs hne hlen]
  simp [intraTileTails, interTileBoundaries, directScan]

theorem tileWidths_sum (w t : Nat) (ht : 0 < t) :
    (tileWidths w t).sum = w := by
  induction w using Nat.strong_induction_on with
  | _ w ih =>
    rw [tileWidths]
    have ht0 : ¬ (t = 0) := by omega
    simp only [ht0, dite_false, reduceDIte]
    by_cases hw : w = 0
    · simp [hw]
    · simp only [hw, reduceDIte, dite_false]
      by_cases hle : w ≤ t
      · simp [hle]
      · rw [if_neg hle]
        simp only [List.sum_cons]
        rw [ih (w - t) (by omega)]
        omega

theorem tileWidths_length (w t : Nat) (ht : 0 < t) :
    (tileWidths w t).length = (w + t - 1) / t := by
  induction w using Nat.strong_induction_on with
  | _ w ih =>
    rw [tileWidths]
    have ht0 : ¬ (t = 0) := by omega
    simp only [ht0, dite_false, reduceDIte]
    by_cases hw : w = 0
    · subst hw
      simp only [List.length_nil]
      exact (Nat.div_eq_of_lt (by omega)).symm
    · simp only [hw, reduceDIte, dite_false]
      by_cases hle : w ≤ t
      · rw [if_pos hle]
        simp only [List.length_singleton]
        exact (Nat.div_eq_of_lt_le (by omega) (by omega)).symm
      · rw [if_neg hle]
        simp only [List.length_cons]
        rw [ih (w - t) (by omega)]
        have h1 : w - t + t - 1 = w - 1 := by omega
        have h2 : w + t - 1 = (w - 1) + t := by omega
        rw [h1, h2, Nat.add_div_right _ ht]

theorem tileWidths_ne_nil (w t : Nat) (ht : 0 < t) (hw : 0 < w) :
    tileWidths w t ≠ [] := by
  rw [tileWidths]
  have ht0 : ¬ (t = 0) := by omega
  have hw0 : ¬ (w = 0) := by omega
  simp only [ht0, hw0, dite_false, reduceDIte]
  by_cases hle : w ≤ t
  · simp [hle]
  · simp [hle]

theorem tileWidths_getLast (w t : Nat) (ht : 0 < t) (hw : 0 < w) :
    (tileWidths w t).getLast? = some (if w % t = 0 then t else w % t) := by
  induction w using Nat.strong_induction_on with
  | _ w ih =>
    rw [tileWidths]
    have ht0 : ¬ (t = 0) := by omega
    have hw0 : ¬ (w = 0) := by omega
    simp only [ht0, hw0, dite_false, reduceDIte]
    by_cases hle : w ≤ t
    · rw [if_pos hle]
      by_cases heq : w = t
      · subst heq
        simp [Nat.mod_self]
      · have hmod : w % t = w := Nat.mod_eq_of_lt (by omega)
        simp [hmod, hw0]
    · rw [if_neg hle]
      have hrest : tileWidths (w - t) t ≠ [] :=
        tileWidths_ne_nil (w - t) t ht (by omega)
      have hcons : (t :: tileWidths (w - t) t).getLast? =
          (tileWidths (w - t) t).getLast? := by
        cases hx : tileWidths (w - t) t with
        | nil => exact absurd hx hrest
        | cons b m => simp [List.getLast?_cons_cons]
      rw [hcons, ih (w - t) (by omega) (by omega)]
      have hmod : (w - t) % t = w % t := by
        conv_rhs => rw [show w = (w - t) + t by omega]
        rw [Nat.add_mod_right]
      rw [hmod]

theorem tileWidths_dropLast (w t : Nat) (ht : 0 < t) :
    ∀ x ∈ (tileWidths w t).dropLast, x = t := by
  induction w using Nat.strong_induction_on with
  | _ w ih =>
    rw [tileWidths]
    have ht0 : ¬ (t = 0) := by omega
    simp only [ht0, dite_false, reduceDIte]
    by_cases hw : w = 0
    · simp [hw]
    · simp only [hw, reduceDIte, dite_false]
      by_cases hle : w ≤ t
      · simp [hle]
      · rw [if_neg hle]
        have hrest : tileWidths (w - t) t ≠ [] :=
          tileWidths_ne_nil (w - t) t ht (by omega)
        rw [List.dropLast_cons_of_ne_nil hrest]
        intro x hx
        rcases List.mem_cons.mp hx with h | h
        · exact h
        · exact ih (w - t) (by omega) x h

/-! ## Scheduling tags (embedded from recfilter_internals.h) -/

namespace VariableTag

/-- Header value `INVALID = 0x0000`. -/
def INVALID : Nat := 0x0000
/-- Header value `FULL = 0x0010`. -/
def FULL : Nat := 0x0010
/-- Header value `INNER = 0x0020`. -/
def INNER : Nat := 0x0020
/-- Header value `OUTER = 0x0040`. -/
def OUTER : Nat := 0x0040
/-- Header value `TAIL = 0x0080`. -/
def TAIL : Nat := 0x0080
/-- Header value `SCAN = 0x0100`. -/
def SCAN : Nat := 0x0100
/-- Header value `CHANNEL = 0x0200`. -/
def CHANNEL : Nat := 0x0200
/-- Header value `__1 = 0x0001`. -/
def pos1 : Nat := 0x0001
/-- Header value `__2 = 0x0002`. -/
def pos2 : Nat := 0x0002
/-- Header value `__3 = 0x0004`. -/
def pos3 : Nat := 0x0004
/-- Header value `__4 = 0x0008`. -/
def pos4 : Nat := 0x0008
/-- Header value `SPLIT = 0x1000`. -/
def SPLIT : Nat := 0x1000

end VariableTag

/-- Modelled from the spec: compatibility between two variable tags is
tested by a non-zero bitwise AND on the relevant bit group (the header
only declares `operator&` on `VariableTag`). -/
def vartag_match (a b : Nat) : Bool := (a &&& b) != 0

/-- Function categories embedded from `FunctionTag` in the header. -/
inductive FunctionTag where
  | INLINE
  | INTER
  | INTRA_N
  | INTRA_1
  | REINDEX
deriving DecidableEq, Repr

/-- Integer encodings of `FunctionTag` from the header. -/
def FunctionTag.asInt : FunctionTag → Nat
  | .INLINE => 0x000
  | .INTER => 0x010
  | .INTRA_N => 0x020
  | .INTRA_1 => 0x040
  | .REINDEX => 0x100

/-- Class `FuncTag` embedded from the header: exactly one category. -/
structure FuncTag where
  tag : FunctionTag
deriving DecidableEq, Repr

/-- The header's default constructor `FuncTag(void) : tag(INLINE) {}`. -/
def FuncTag.mkDefault : FuncTag := ⟨FunctionTag.INLINE⟩

/-- The header's `as_integer`. -/
def FuncTag.as_integer (f : FuncTag) : Nat := f.tag.asInt

/-! ## Filter info and filter graph (embedded from recfilter_internals.h,
behaviour of the decomposer and mutators modelled from the spec) -/

/-- Structure `FilterInfo` embedded from the header (Halide `Var`/`RDom` handles
are represented by the update-iteration tile domain). -/
structure FilterInfoM where
  filter_order : Nat
  filter_dim : Nat
  num_scans : Nat
  image_width : Nat
  tile_width : Nat
  rdom : List Nat
  scan_causal : List Bool
  scan_id : List Nat
deriving DecidableEq, Repr

/-- The spec invariant `num_scans == |scan_causal| == |scan_id|`. -/
def FilterInfoM.wf (f : FilterInfoM) : Prop :=
  f.num_scans = f.scan_causal.length ∧ f.num_scans = f.scan_id.length

instance (f : FilterInfoM) : Decidable f.wf := by
  unfold FilterInfoM.wf; infer_instance

/-- Modelled from the spec: the ScanDecomposer — given the dimension's
order, the causal/anticausal flag of each scan, image width and tile
width, produce a `FilterInfo` with scan ids assigned in declaration
order and the update-iteration domain covering the tiles; fails with
InvalidTileWidth when `tileWidth <= 0` or `tileWidth > imageWidth`. -/
def scanDecompose (order dim : Nat) (causal : List Bool) (w t : Nat) :
    Except RecErr FilterInfoM :=
  if t = 0 ∨ w < t then .error .InvalidTileWidth
  else .ok
    { filter_order := order
      filter_dim := dim
      num_scans := causal.length
      image_width := w
      tile_width := t
      rdom := tileWidths w t
      scan_causal := causal
      scan_id := List.range causal.length }

/-- Modelled from the spec: the one tile-width mutation a `FilterInfo`
undergoes at tiling time. -/
def setTileWidth (f : FilterInfoM) (t : Nat) : FilterInfoM :=
  { f with tile_width := t, rdom := tileWidths f.image_width t }

/-- Struct `RecFilterContents` embedded from the header: lifecycle flags,
border flag, name, filter info list and stage-name list (the
`RecFilterFunc` map is represented by its key set; coefficients,
Halide types and targets are external handles). -/
structure FilterGraph where
  tiled : Bool
  compiled : Bool
  finalized : Bool
  clamped_border : Bool
  name : String
  filter_info : List FilterInfoM
  stages : List String
deriving DecidableEq, Repr

/-- Operations the graph supports (spec section 4.4). -/
inductive GraphOp where
  | addInfo (fi : FilterInfoM)
  | addStage (s : String)
  | doTile
  | doFinalize
  | doCompile
deriving DecidableEq, Repr

/-- Whether an operation is a structural mutation (adds metadata), as
opposed to a lifecycle transition. -/
def GraphOp.isStructural : GraphOp → Bool
  | .addInfo _ => true
  | .addStage _ => true
  | _ => false

/-- Modelled from the spec: every graph operation, validate-then-apply;
any structural mutation once compiled fails with AlreadyCompiled, and
the lifecycle flags only ever move forward
(Untiled → Tiled → Finalized → Compiled). -/
def applyOp (op : GraphOp) (g : FilterGraph) : Except RecErr FilterGraph :=
  match op with
  | .addInfo fi =>
    if g.compiled then .error .AlreadyCompiled
    else .ok { g with filter_info := g.filter_info ++ [fi] }
  | .addStage s =>
    if g.compiled then .error .AlreadyCompiled
    else .ok { g with stages := g.stages ++ [s] }
  | .doTile =>
    if g.compiled then .error .AlreadyCompiled
    else if g.filter_info.all
        (fun f => 0 < f.tile_width ∧ f.tile_width ≤ f.image_width) then
      .ok { g with tiled := true }
    else .error .InvalidTileWidth
  | .doFinalize =>
    if g.compiled then .error .AlreadyCompiled
    else if g.tiled then .ok { g with finalized := true }
    else .error .InconsistentTag
  | .doCompile =>
    if g.compiled then .error .AlreadyCompiled
    else if g.finalized then .ok { g with compiled := true }
    else .error .InconsistentTag

/-- The lifecycle order: no flag that is set ever becomes unset. -/
def lifecycleForward (g g2 : FilterGraph) : Prop :=
  (g.tiled = true → g2.tiled = true) ∧
  (g.finalized = true → g2.finalized = true) ∧
  (g.compiled = true → g2.compiled = true)

/-! ## Claim theorems -/

/-- C2: for every n > 0, the n×n antidiagonal permutation matrix
multiplied by itself is the n×n identity. -/
theorem antidiagonal_involutive (n : Nat) (_hn : 0 < n) :
    ∃ M, matrix_mult (matrix_antidiagonal n) (matrix_antidiagonal n) =
      Except.ok M ∧ matEq M (identityMat n) := by
  refine ⟨⟨n, n, fun i j => ∑ k ∈ Finset.range n,
    (matrix_antidiagonal n).entry i k * (matrix_antidiagonal n).entry k j⟩,
    ?_, ?_⟩
  · simp [matrix_mult, matrix_antidiagonal]
  · exact ⟨rfl, rfl, fun i hi j hj => antidiag_prod_entry n i j hi hj⟩

/-- Witness for C2 at n = 3. -/
theorem antidiagonal_involutive_witness :
    0 < 3 ∧ ∃ M, matrix_mult (matrix_antidiagonal 3) (matrix_antidiagonal 3) =
      Except.ok M ∧ matEq M (identityMat 3) :=
  ⟨by decide, antidiagonal_involutive 3 (by decide)⟩

/-- C3: for every scan of order r >= 1 and tile width >= r, `matrix_R`
returns an r×r matrix and `matrix_B` returns an r×tileWidth matrix. -/
theorem coefficient_matrix_shapes (ff : ℚ) (fb : List ℚ) (t : Nat)
    (clamp : Bool) (hr : 1 ≤ fb.length) (ht : fb.length ≤ t) :
    (∃ M, matrix_R fb t = Except.ok M ∧
      M.rows = fb.length ∧ M.cols = fb.length) ∧
    (∃ M, matrix_B ff fb t clamp = Except.ok M ∧
      M.rows = fb.length ∧ M.cols = t) := by
  have hcond : ¬ (fb.length = 0 ∨ t < fb.length) := by omega
  constructor
  · refine ⟨⟨fb.length, fb.length, matRfun fb t⟩, ?_, rfl, rfl⟩
    unfold matrix_R
    rw [if_neg hcond]
  · refine ⟨⟨fb.length, t, matBfun ff fb t clamp⟩, ?_, rfl, rfl⟩
    unfold matrix_B
    rw [if_neg hcond]

/-- Witness for C3 with an order-1 scan and tile width 4. -/
theorem coefficient_matrix_shapes_witness :
    (∃ M, matrix_R [(1 : ℚ)/2] 4 = Except.ok M ∧
      M.rows = 1 ∧ M.cols = 1) ∧
    (∃ M, matrix_B 1 [(1 : ℚ)/2] 4 false = Except.ok M ∧
      M.rows = 1 ∧ M.cols = 4) :=
  coefficient_matrix_shapes 1 [(1 : ℚ)/2] 4 false (by simp) (by simp)

/-- C5: `matrix_mult` fails with DimensionMismatch exactly when the
inner dimensions disagree, and otherwise returns the standard product
with the outer shape. -/
theorem matrix_mult_dimension_check (A B : FMatrix) :
    (matrix_mult A B = Except.error RecErr.DimensionMismatch ↔
      A.cols ≠ B.rows) ∧
    (A.cols = B.rows → ∃ M, matrix_mult A B = Except.ok M ∧
      M.rows = A.rows ∧ M.cols = B.cols ∧ ∀ i j,
        M.entry i j = ∑ k ∈ Finset.range A.cols, A.entry i k * B.entry k j) := by
  constructor
  · by_cases h : A.cols = B.rows
    · simp [matrix_mult, h]
    · simp [matrix_mult, h]
  · intro h
    refine ⟨⟨A.rows, B.cols, fun i j =>
      ∑ k ∈ Finset.range A.cols, A.entry i k * B.entry k j⟩, ?_, rfl, rfl,
      fun i j => rfl⟩
    simp [matrix_mult, h]

/-- Witness for C5: a compatible 1×2 by 2×1 pair multiplies, and an
incompatible pair fails. -/
theorem matrix_mult_dimension_check_witness :
    (∃ M, matrix_mult ⟨1, 2, fun _ _ => 1⟩ ⟨2, 1, fun _ _ => 1⟩ =
      Except.ok M ∧ M.rows = 1 ∧ M.cols = 1 ∧ ∀ i j,
        M.entry i j = ∑ _k ∈ Finset.range 2, (1 : ℚ) * 1) ∧
    matrix_mult ⟨1, 2, fun _ _ => (1 : ℚ)⟩ ⟨3, 1, fun _ _ => 1⟩ =
      Except.error RecErr.DimensionMismatch :=
  ⟨(matrix_mult_dimension_check ⟨1, 2, fun _ _ => 1⟩ ⟨2, 1, fun _ _ => 1⟩).2
      rfl,
   (matrix_mult_dimension_check ⟨1, 2, fun _ _ => 1⟩ ⟨3, 1, fun _ _ => 1⟩).1.mpr
      (by decide)⟩

/-- C6: `matrix_R` and `matrix_B` fail with InvalidOrder exactly when
the scan's order is 0 or the tile width is below the order; on success
the entries are the values of the total rational-valued builders. -/
theorem coefficient_matrix_invalid_order (ff : ℚ) (fb : List ℚ) (t : Nat)
    (clamp : Bool) :
    (matrix_R fb t = Except.error RecErr.InvalidOrder ↔
      (fb.length = 0 ∨ t < fb.length)) ∧
    (matrix_B ff fb t clamp = Except.error RecErr.InvalidOrder ↔
      (fb.length = 0 ∨ t < fb.length)) ∧
    (∀ M, matrix_R fb t = Except.ok M →
      ∀ i j, M.entry i j = matRfun fb t i j) ∧
    (∀ M, matrix_B ff fb t clamp = Except.ok M →
      ∀ i j, M.entry i j = matBfun ff fb t clamp i j) := by
  by_cases h : fb.length = 0 ∨ t < fb.length
  · refine ⟨?_, ?_, ?_, ?_⟩
    · unfold matrix_R; rw [if_pos h]; exact iff_of_true rfl h
    · unfold matrix_B; rw [if_pos h]; exact iff_of_true rfl h
    · intro M hM; unfold matrix_R at hM; rw [if_pos h] at hM; cases hM
    · intro M hM; unfold matrix_B at hM; rw [if_pos h] at hM; cases hM
  · refine ⟨?_, ?_, ?_, ?_⟩
    · unfold matrix_R; rw [if_neg h]
      exact iff_of_false (fun hx => Except.noConfusion hx) h
    · unfold matrix_B; rw [if_neg h]
      exact iff_of_false (fun hx => Except.noConfusion hx) h
    · intro M hM; unfold matrix_R at hM; rw [if_neg h] at hM
      cases hM
      intro i j; rfl
    · intro M hM; unfold matrix_B at hM; rw [if_neg h] at hM
      cases hM
      intro i j; rfl

/-- Witness for C6: order 0 fails, tile width below order fails, and a
valid order-1 call succeeds with the builder's entries. -/
theorem coefficient_matrix_invalid_order_witness :
    matrix_R ([] : List ℚ) 5 = Except.error RecErr.InvalidOrder ∧
    matrix_B 1 [(1 : ℚ)/2] 0 false = Except.error RecErr.InvalidOrder ∧
    (∀ M, matrix_R [(1 : ℚ)/2] 4 = Except.ok M →
      ∀ i j, M.entry i j = matRfun [(1 : ℚ)/2] 4 i j) :=
  ⟨(coefficient_matrix_invalid_order 1 [] 5 false).1.mpr (Or.inl rfl),
   (coefficient_matrix_invalid_order 1 [(1 : ℚ)/2] 0 false).2.1.mpr
      (Or.inr (by simp)),
   (coefficient_matrix_invalid_order 1 [(1 : ℚ)/2] 4 false).2.2.1⟩

/-- C4: for 0 < tileWidth <= imageWidth the decomposer's
update-iteration domain covers exactly `ceil(w / t)` tiles whose widths
sum to the image width, every non-final tile has width `t`, the final
tile has width `w mod t` when `t` does not divide `w`, and the domain
is exactly what `scanDecompose` records; in particular width 17 with
tile 4 gives tiles `[4, 4, 4, 4, 1]` and width 16 with tile 4 gives
`[4, 4, 4, 4]`. -/
theorem decomposer_tile_domain (w t : Nat) (ht : 0 < t) (htw : t ≤ w) :
    (tileWidths w t).length = (w + t - 1) / t ∧
    (tileWidths w t).sum = w ∧
    (w % t ≠ 0 → (tileWidths w t).getLast? = some (w % t)) ∧
    (∀ x ∈ (tileWidths w t).dropLast, x = t) ∧
    (∀ order dim causal, ∃ fi,
      scanDecompose order dim causal w t = Except.ok fi ∧
      fi.rdom = tileWidths w t) ∧
    tileWidths 17 4 = [4, 4, 4, 4, 1] ∧
    tileWidths 16 4 = [4, 4, 4, 4] := by
  refine ⟨tileWidths_length w t ht, tileWidths_sum w t ht, ?_,
    tileWidths_dropLast w t ht, ?_, by simp [tileWidths], by simp [tileWidths]⟩
  · intro hmod
    rw [tileWidths_getLast w t ht (by omega), if_neg hmod]
  · intro order dim causal
    refine ⟨FilterInfoM.mk order dim causal.length w t (tileWidths w t)
        causal (List.range causal.length), ?_, rfl⟩
    unfold scanDecompose
    rw [if_neg (by omega)]

/-- Witness for C4 at image width 17 and tile width 4. -/
theorem decomposer_tile_domain_witness :
    (tileWidths 17 4).length = 5 ∧
    (tileWidths 17 4).sum = 17 ∧
    (tileWidths 17 4).getLast? = some 1 := by
  have h := decomposer_tile_domain 17 4 (by decide) (by decide)
  refine ⟨?_, h.2.1, ?_⟩
  · have := h.1
    simpa using this
  · have := h.2.2.1 (by decide)
    simpa using this

/-- C7: the OUTER|SCAN|pos2 tag matches a SCAN-role mask (non-zero
bitwise AND) and does not match a CHANNEL-role mask, and tag
compatibility is exactly a non-zero bitwise AND. -/
theorem vartag_scan_role_match :
    vartag_match
      (VariableTag.OUTER ||| VariableTag.SCAN ||| VariableTag.pos2)
      VariableTag.SCAN = true ∧
    vartag_match
      (VariableTag.OUTER ||| VariableTag.SCAN ||| VariableTag.pos2)
      VariableTag.CHANNEL = false ∧
    ∀ a b : Nat, vartag_match a b = true ↔ (a &&& b) ≠ 0 := by
  refine ⟨by decide, by decide, ?_⟩
  intro a b
  simp [vartag_match]

/-- C10: a default-constructed FuncTag carries the INLINE category,
INLINE encodes to 0x000, and no bitwise AND with the default tag's
encoding is ever non-zero. -/
theorem funcTag_default_inline :
    FuncTag.mkDefault.tag = FunctionTag.INLINE ∧
    FuncTag.mkDefault.as_integer = 0 ∧
    FunctionTag.INLINE.asInt = 0 ∧
    ∀ m : Nat, FuncTag.mkDefault.as_integer &&& m = 0 := by
  refine ⟨rfl, rfl, rfl, ?_⟩
  intro m
  show (0 : Nat) &&& m = 0
  simp

/-- C8: once a graph is compiled every structural mutation fails with
AlreadyCompiled, and every successful operation moves the lifecycle
flags only forward. -/
theorem graph_compiled_rejects_mutation (g : FilterGraph) (op : GraphOp) :
    (g.compiled = true → op.isStructural = true →
      applyOp op g = Except.error RecErr.AlreadyCompiled) ∧
    (∀ g2, applyOp op g = Except.ok g2 → lifecycleForward g g2) := by
  constructor
  · intro hc hs
    cases op with
    | addInfo fi => simp [applyOp, hc]
    | addStage s => simp [applyOp, hc]
    | doTile => simp [GraphOp.isStructural] at hs
    | doFinalize => simp [GraphOp.isStructural] at hs
    | doCompile => simp [GraphOp.isStructural] at hs
  · intro g2 hok
    cases op with
    | addInfo fi =>
      simp only [applyOp] at hok
      split at hok
      · exact Except.noConfusion hok
      · cases hok
        exact ⟨fun h => h, fun h => h, fun h => h⟩
    | addStage s =>
      simp only [applyOp] at hok
      split at hok
      · exact Except.noConfusion hok
      · cases hok
        exact ⟨fun h => h, fun h => h, fun h => h⟩
    | doTile =>
      simp only [applyOp] at hok
      split at hok
      · exact Except.noConfusion hok
      · split at hok
        · cases hok
          exact ⟨fun _ => rfl, fun h => h, fun h => h⟩
        · exact Except.noConfusion hok
    | doFinalize =>
      simp only [applyOp] at hok
      split at hok
      · exact Except.noConfusion hok
      · split at hok
        · cases hok
          exact ⟨fun h => h, fun _ => rfl, fun h => h⟩
        · exact Except.noConfusion hok
    | doCompile =>
      simp only [applyOp] at hok
      split at hok
      · exact Except.noConfusion hok
      · split at hok
        · cases hok
          exact ⟨fun h => h, fun h => h, fun _ => rfl⟩
        · exact Except.noConfusion hok

/-- A concrete fully compiled graph, for the lifecycle witness. -/
def gCompiled : FilterGraph :=
  ⟨true, true, true, false, "box3", [], []⟩

/-- A concrete freshly constructed graph, for the lifecycle witness. -/
def gFresh : FilterGraph :=
  ⟨false, false, false, false, "box3", [], []⟩

/-- Witness for C8: a stage insertion on a compiled graph fails, and a
successful tiling step only moves the lifecycle forward. -/
theorem graph_compiled_rejects_mutation_witness :
    applyOp (GraphOp.addStage "tail") gCompiled =
      Except.error RecErr.AlreadyCompiled ∧
    lifecycleForward gFresh
      { gFresh with tiled := true } :=
  ⟨(graph_compiled_rejects_mutation gCompiled (GraphOp.addStage "tail")).1
      rfl rfl,
   (graph_compiled_rejects_mutation gFresh GraphOp.doTile).2
      { gFresh with tiled := true } rfl⟩

/-- C9: the decomposer only produces FilterInfo with
`num_scans = |scan_causal| = |scan_id|`, and the invariant is preserved
by the tile-width mutation and by inserting the info into a graph. -/
theorem filterInfo_scan_count_invariant :
    (∀ order dim causal w t fi,
      scanDecompose order dim causal w t = Except.ok fi →
      FilterInfoM.wf fi) ∧
    (∀ f t2, FilterInfoM.wf f → FilterInfoM.wf (setTileWidth f t2)) ∧
    (∀ g fi g2, (∀ f ∈ g.filter_info, FilterInfoM.wf f) →
      FilterInfoM.wf fi →
      applyOp (GraphOp.addInfo fi) g = Except.ok g2 →
      ∀ f ∈ g2.filter_info, FilterInfoM.wf f) := by
  refine ⟨?_, ?_, ?_⟩
  · intro order dim causal w t fi hok
    unfold scanDecompose at hok
    split at hok
    · exact Except.noConfusion hok
    · cases hok
      exact ⟨rfl, (List.length_range _).symm⟩
  · intro f t2 hwf
    exact hwf
  · intro g fi g2 hg hfi hok
    simp only [applyOp] at hok
    split at hok
    · exact Except.noConfusion hok
    · cases hok
      intro f hf
      rcases List.mem_append.mp hf with h | h
      · exact hg f h
      · rw [List.mem_singleton.mp h]
        exact hfi

/-- Witness for C9: a concrete decomposition and a tile-width change
both satisfy the invariant. -/
theorem filterInfo_scan_count_invariant_witness :
    FilterInfoM.wf
      (FilterInfoM.mk 1 0 1 8 4 (tileWidths 8 4) [true] [0]) ∧
    FilterInfoM.wf
      (setTileWidth (FilterInfoM.mk 1 0 1 8 4 (tileWidths 8 4) [true] [0]) 2) :=
  ⟨filterInfo_scan_count_invariant.1 1 0 [true] 8 4
      (FilterInfoM.mk 1 0 1 8 4 (tileWidths 8 4) [true] [0])
      (by unfold scanDecompose; rw [if_neg (by omega)]; rfl),
   filterInfo_scan_count_invariant.2.1
      (FilterInfoM.mk 1 0 1 8 4 (tileWidths 8 4) [true] [0]) 2
      ⟨rfl, rfl⟩⟩

/-- C1: for an order-1 causal filter with feedback coefficient 1/2 and
feedforward coefficient 1 on an 8-element input with tile width equal
to the image width (a single tile), the composed intra-tile, inter-tile
and reindex stages produce exactly the direct untiled recurrence
evaluation (exact rational equality, hence within any floating-point
tolerance). -/
theorem tiled_single_tile_refinement (xs : List ℚ) (hlen : xs.length = 8) :
    tiledPipeline 1 [(1 : ℚ)/2] 8 xs = directScan 1 [(1 : ℚ)/2] xs := by
  apply tiledPipeline_single_tile
  · intro h
    rw [h] at hlen
    simp at hlen
  · exact hlen.le

/-- Witness for C1 on the input 1..8. -/
theorem tiled_single_tile_refinement_witness :
    tiledPipeline 1 [(1 : ℚ)/2] 8 [1, 2, 3, 4, 5, 6, 7, 8] =
      directScan 1 [(1 : ℚ)/2] [1, 2, 3, 4, 5, 6, 7, 8] :=
  tiled_single_tile_refinement [1, 2, 3, 4, 5, 6, 7, 8] rfl
